import Mathlib

/-!
Verification of the feed-fetch-and-normalize pipeline of `src/app.py`
(an ESP32 DHT11 dashboard polling Adafruit IO).

The Python source is shallowly embedded:
* `RawRecord` models one decoded JSON entry of a feed response (the pipeline
  reads exactly the `created_at` and `value` string fields of each entry).
* `fromisoformat` models `datetime.datetime.fromisoformat` on the extended
  ISO-8601 format `YYYY-MM-DD[<sep>HH[:MM[:SS[.ffffff]]][±HH:MM[:SS]]]`
  (the compact "basic" format without dashes/colons is not modelled).
* `pyFloat` models Python's `float(str)` string conversion: leading/trailing
  whitespace stripped, optional sign, case-insensitive `inf`/`infinity`/`nan`,
  decimal literals with medial underscores and exponents.  Finite values are
  carried as exact rationals; the pipeline never performs float arithmetic,
  so IEEE rounding at the representation boundary is not modelled.
* `process_data` models the normalizer `process_data` of `app.py` lines 36-49,
  including the fact that `times.append(dt)` runs before `float(entry["value"])`
  is attempted, and that an exception escaping the `pd.DataFrame(...)` call
  (mismatched column lengths, or mixed naive/aware timestamps at the sort)
  aborts the function: the result is `Option`, `none` meaning an uncaught
  exception.  A returned series is a list of points; list positions are the
  renumbered index produced by `reset_index(drop=True)`.
* `get_feed_data` models the fetcher of lines 22-33 with the network
  interaction abstracted into a `FetchOutcome` environment value; exceptions
  are explicit via `Except`.
* `create_dashboard` models the data flow of lines 79-91 of the dashboard.
-/

/-- One entry of a decoded feed response: the two fields the pipeline reads
(`entry["created_at"]`, `entry["value"]`), both strings per the remote API. -/
structure RawRecord where
  created_at : String
  value : String
deriving DecidableEq, Repr

/-- Result of Python's `float(...)` on a string: a finite value (carried as an
exact rational), an infinity, or a NaN. -/
inductive PyFloat where
  | finite : Rat → PyFloat
  | inf : PyFloat
  | negInf : PyFloat
  | nan : PyFloat
deriving DecidableEq, Repr

/-- A `datetime.datetime` as produced by `fromisoformat`: calendar fields,
microseconds, and an optional UTC offset in seconds (`none` = naive). -/
structure DateTime where
  year : Nat
  month : Nat
  day : Nat
  hour : Nat
  minute : Nat
  second : Nat
  microsecond : Nat
  offset : Option Int
deriving DecidableEq, Repr

/-! ### Character-level parsing helpers -/

def digitVal (c : Char) : Option Nat :=
  if '0' ≤ c ∧ c ≤ '9' then some (c.toNat - 48) else none

/-- Read exactly `n` decimal digits, returning their value and the rest. -/
def readDigits (acc : Nat) : Nat → List Char → Option (Nat × List Char)
  | 0, cs => some (acc, cs)
  | _ + 1, [] => none
  | n + 1, c :: cs =>
    match digitVal c with
    | some d => readDigits (acc * 10 + d) n cs
    | none => none

def expect (c : Char) : List Char → Option (List Char)
  | [] => none
  | c2 :: cs => if c2 = c then some cs else none

/-- Read between 1 and 6 digits (a fractional-second field), returning the
value scaled to microseconds. -/
def readFrac (acc : Nat) (count : Nat) : List Char → Option (Nat × List Char)
  | [] => if 1 ≤ count ∧ count ≤ 6 then some (acc * 10 ^ (6 - count), []) else none
  | c :: cs =>
    match digitVal c with
    | some d =>
      if count < 6 then readFrac (acc * 10 + d) (count + 1) cs
      else none
    | none => if 1 ≤ count ∧ count ≤ 6 then some (acc * 10 ^ (6 - count), c :: cs) else none

def isLeapYear (y : Nat) : Bool :=
  (y % 4 = 0 ∧ y % 100 ≠ 0) ∨ y % 400 = 0

def daysInMonth (y m : Nat) : Nat :=
  if m = 2 then (if isLeapYear y then 29 else 28)
  else if m = 4 ∨ m = 6 ∨ m = 9 ∨ m = 11 then 30
  else 31

/-- Parse the optional UTC-offset suffix `±HH:MM[:SS]`; `some none` means no
offset (naive), `some (some k)` an offset of `k` seconds east of UTC. -/
def parseOffset : List Char → Option (Option Int)
  | [] => some none
  | c :: cs =>
    if c = '+' ∨ c = '-' then
      match readDigits 0 2 cs with
      | none => none
      | some (oh, r1) =>
        match expect ':' r1 with
        | none => none
        | some r2 =>
          match readDigits 0 2 r2 with
          | none => none
          | some (om, r3) =>
            let withSec : Option (Nat × List Char) :=
              match expect ':' r3 with
              | none => some (0, r3)
              | some r4 =>
                match readDigits 0 2 r4 with
                | none => none
                | some (os, r5) => some (os, r5)
            match withSec with
            | none => none
            | some (os, rest) =>
              if rest = [] ∧ oh ≤ 23 ∧ om ≤ 59 ∧ os ≤ 59 then
                let total : Int := (oh : Int) * 3600 + (om : Int) * 60 + (os : Int)
                some (some (if c = '-' then -total else total))
              else none
    else none

/-- Parse `HH[:MM[:SS[.ffffff]]]` followed by an optional offset. -/
def parseTimeOfDay (cs : List Char) : Option (Nat × Nat × Nat × Nat × Option Int) :=
  match readDigits 0 2 cs with
  | none => none
  | some (hh, r1) =>
    let rec3 : Option (Nat × Nat × Nat × List Char) :=
      match expect ':' r1 with
      | none => some (0, 0, 0, r1)
      | some r2 =>
        match readDigits 0 2 r2 with
        | none => none
        | some (mm, r3) =>
          match expect ':' r3 with
          | none => some (mm, 0, 0, r3)
          | some r4 =>
            match readDigits 0 2 r4 with
            | none => none
            | some (ss, r5) =>
              match r5 with
              | '.' :: r6 =>
                (match readFrac 0 0 r6 with
                 | none => none
                 | some (us, r7) => some (mm, ss, us, r7))
              | ',' :: r6 =>
                (match readFrac 0 0 r6 with
                 | none => none
                 | some (us, r7) => some (mm, ss, us, r7))
              | _ => some (mm, ss, 0, r5)
    match rec3 with
    | none => none
    | some (mm, ss, us, rest) =>
      match parseOffset rest with
      | none => none
      | some off =>
        if hh ≤ 23 ∧ mm ≤ 59 ∧ ss ≤ 59 then some (hh, mm, ss, us, off) else none

/-- Model of `datetime.datetime.fromisoformat` on the extended format:
`YYYY-MM-DD`, optionally followed by a single separator character, a time
`HH[:MM[:SS[.ffffff]]]` and an offset `±HH:MM[:SS]`. -/
def fromisoformat (cs : List Char) : Option DateTime :=
  match readDigits 0 4 cs with
  | none => none
  | some (y, r1) =>
    match expect '-' r1 with
    | none => none
    | some r2 =>
      match readDigits 0 2 r2 with
      | none => none
      | some (mo, r3) =>
        match expect '-' r3 with
        | none => none
        | some r4 =>
          match readDigits 0 2 r4 with
          | none => none
          | some (d, r5) =>
            if 1 ≤ mo ∧ mo ≤ 12 ∧ 1 ≤ d ∧ d ≤ daysInMonth y mo then
              match r5 with
              | [] => some ⟨y, mo, d, 0, 0, 0, 0, none⟩
              | _ :: r6 =>
                match parseTimeOfDay r6 with
                | none => none
                | some (hh, mm, ss, us, off) => some ⟨y, mo, d, hh, mm, ss, us, off⟩
            else none

/-- Embeds the call `s.replace("Z", "+00:00")` of `app.py` line 40: every
occurrence of the character `Z` is replaced by `+00:00`. -/
def replaceZ : List Char → List Char
  | [] => []
  | c :: cs =>
    if c = 'Z' then '+' :: '0' :: '0' :: ':' :: '0' :: '0' :: replaceZ cs
    else c :: replaceZ cs

/-! ### Model of Python `float(str)` -/

/-- Whitespace characters stripped by Python's `float(str)`. -/
def isPySpace (c : Char) : Bool :=
  c = ' ' ∨ c = '\t' ∨ c = '\n' ∨ c = '\r' ∨ c = '\x0b' ∨ c = '\x0c'

def stripSpaces (cs : List Char) : List Char :=
  ((cs.dropWhile isPySpace).reverse.dropWhile isPySpace).reverse

/-- Greedy read of a digit run that may contain single underscores between
digits (Python numeric-literal underscores).  Returns the accumulated value,
the number of digits read, and the unconsumed rest; a trailing or doubled
underscore is left unconsumed (and will make the overall parse fail). -/
def readDigitsU : Nat → Nat → List Char → Nat × Nat × List Char
  | acc, cnt, [] => (acc, cnt, [])
  | acc, cnt, c :: cs =>
    match digitVal c with
    | some d => readDigitsU (acc * 10 + d) (cnt + 1) cs
    | none =>
      if c = '_' ∧ 0 < cnt then
        match cs with
        | c2 :: cs2 =>
          (match digitVal c2 with
           | some d => readDigitsU (acc * 10 + d) (cnt + 1) cs2
           | none => (acc, cnt, c :: cs))
        | [] => (acc, cnt, c :: cs)
      else (acc, cnt, c :: cs)

/-- Parse the numeric part of a Python float literal after the optional sign:
`digits [. digits] [(e|E) [sign] digits]`, with at least one mantissa digit.
The exact value is returned as a numerator/denominator pair of naturals. -/
def parseFloatBody (cs : List Char) : Option (Nat × Nat) :=
  let (ip, icnt, r1) := readDigitsU 0 0 cs
  let fracRes : Nat × Nat × List Char :=
    match r1 with
    | '.' :: r2 => readDigitsU 0 0 r2
    | _ => (0, 0, r1)
  let fp := fracRes.1
  let fcnt := fracRes.2.1
  let r3 := fracRes.2.2
  if icnt + fcnt = 0 then none
  else
    let mant : Nat := ip * 10 ^ fcnt + fp
    match r3 with
    | [] => some (mant, 10 ^ fcnt)
    | e :: r4 =>
      if e = 'e' ∨ e = 'E' then
        let signRes : Bool × List Char :=
          match r4 with
          | '+' :: r5 => (false, r5)
          | '-' :: r5 => (true, r5)
          | _ => (false, r4)
        let (ev, ecnt, r6) := readDigitsU 0 0 signRes.2
        if ecnt = 0 ∨ r6 ≠ [] then none
        else if signRes.1 then some (mant, 10 ^ fcnt * 10 ^ ev)
        else some (mant * 10 ^ ev, 10 ^ fcnt)
      else none

def lowerEq (cs : List Char) (word : List Char) : Bool :=
  cs.map Char.toLower = word

/-- Model of Python's `float(s)` on a string: strip whitespace, optional
sign, then `inf`/`infinity`/`nan` (case-insensitive) or a decimal literal. -/
def pyFloat (s : String) : Option PyFloat :=
  let cs := stripSpaces s.data
  let signBody : Int × List Char :=
    match cs with
    | '+' :: r => (1, r)
    | '-' :: r => (-1, r)
    | _ => (1, cs)
  let sgn := signBody.1
  let body := signBody.2
  if lowerEq body ['i', 'n', 'f'] ∨
     lowerEq body ['i', 'n', 'f', 'i', 'n', 'i', 't', 'y'] then
    some (if sgn = 1 then PyFloat.inf else PyFloat.negInf)
  else if lowerEq body ['n', 'a', 'n'] then
    some PyFloat.nan
  else
    match parseFloatBody body with
    | some nd => some (PyFloat.finite (mkRat (sgn * (nd.1 : Int)) nd.2))
    | none => none

/-! ### Ordering of datetimes

Python compares two aware datetimes by their UTC instant and two naive
datetimes by wall-clock value; comparing a naive with an aware datetime
raises `TypeError`.  `tsKey` computes the instant in microseconds (offset
subtracted when present), which realises the Python order on any
homogeneous (all-aware or all-naive) collection; `process_data` only sorts
homogeneous collections, mirroring the `TypeError` otherwise. -/

/-- Days between a Gregorian civil date and 1970-01-01 (Hinnant's
`days_from_civil` algorithm, truncating division). -/
def daysFromCivil (y m d : Int) : Int :=
  let y2 := if m ≤ 2 then y - 1 else y
  let era := (if 0 ≤ y2 then y2 else y2 - 399) / 400
  let yoe := y2 - era * 400
  let mp := (m + 9) % 12
  let doy := (153 * mp + 2) / 5 + d - 1
  let doe := yoe * 365 + yoe / 4 - yoe / 100 + doy
  era * 146097 + doe - 719468

/-- The instant of a datetime in microseconds since the epoch (offset
subtracted when aware; naive datetimes are keyed by wall clock). -/
def tsKey (t : DateTime) : Int :=
  ((daysFromCivil t.year t.month t.day) * 86400
    + (t.hour : Int) * 3600 + (t.minute : Int) * 60 + (t.second : Int)
    - t.offset.getD 0) * 1000000 + (t.microsecond : Int)

/-! ### The normalizer `process_data` (app.py lines 36-49) -/

/-- Line 40: `datetime.datetime.fromisoformat(entry["created_at"].replace("Z", "+00:00"))`. -/
def parseTime (r : RawRecord) : Option DateTime :=
  fromisoformat (replaceZ r.created_at.data)

/-- Line 42: `float(entry["value"])`. -/
def parseVal (r : RawRecord) : Option PyFloat :=
  pyFloat r.value

/-- The `for entry in data` loop of lines 38-44, producing the `times` and
`values` lists in input order.  Each entry appends its timestamp to `times`
first and only then attempts the value parse, so an entry whose timestamp
parses but whose value does not leaves `times` one element longer than
`values` (the exception from `float` is caught by the same `except`). -/
def processEntries : List RawRecord → List DateTime × List PyFloat
  | [] => ([], [])
  | e :: rest =>
    match parseTime e, parseVal e with
    | none, _ => processEntries rest
    | some dt, none => (dt :: (processEntries rest).1, (processEntries rest).2)
    | some dt, some v => (dt :: (processEntries rest).1, v :: (processEntries rest).2)

/-- A point of the normalized series: one row `(time, value)` of the frame. -/
abbrev Point := DateTime × PyFloat

/-- Comparison used by `.sort_values("time")`: ascending by timestamp. -/
def timeLE (p q : Point) : Prop := tsKey p.1 ≤ tsKey q.1

instance : DecidableRel timeLE := fun p q => Int.decLe (tsKey p.1) (tsKey q.1)

instance : IsTotal Point timeLE := ⟨fun p q => Int.le_total (tsKey p.1) (tsKey q.1)⟩

instance : IsTrans Point timeLE := ⟨fun _ _ _ h h2 => Int.le_trans h h2⟩

/-- Python can compare the `time` column only when its datetimes are all
aware or all naive; a mixed column makes `.sort_values` raise `TypeError`. -/
def pairsComparable (l : List Point) : Bool :=
  l.all (fun p => p.1.offset.isSome) || l.all (fun p => p.1.offset.isNone)

/-- Model of `process_data` (lines 36-49).  Runs the parsing loop, then
`pd.DataFrame({"time": times, "value": values}).sort_values("time").reset_index(drop=True)`.
`none` models an uncaught exception escaping `process_data`: the `DataFrame`
constructor raises `ValueError` when `times` and `values` have different
lengths, and `sort_values` raises `TypeError` on a mixed naive/aware column.
The returned list holds the rows in frame order; list positions are the
index renumbered from zero by `reset_index(drop=True)`. -/
def process_data (data : List RawRecord) : Option (List Point) :=
  if (processEntries data).1.length = (processEntries data).2.length then
    if pairsComparable ((processEntries data).1.zip (processEntries data).2) then
      some (List.insertionSort timeLE ((processEntries data).1.zip (processEntries data).2))
    else none
  else none

/-! ### The dashboard data flow (app.py lines 79-91) -/

/-- Outcome of the fetch-and-process section of `create_dashboard`. -/
inductive DashResult where
  | fetchFailure : DashResult
  | noValidData : DashResult
  | rendered : List Point → List Point → DashResult
deriving DecidableEq, Repr

/-- Model of lines 79-91 of `create_dashboard`, as a function of the two
fetch results.  Line 82 returns early (showing a fetch error) when either
raw result is `None`; only otherwise are the feeds normalized, with the
`or []` coercion of lines 86-87 turning a falsy raw value into `[]`.
`none` models an exception escaping `create_dashboard` (a `process_data`
crash propagates uncaught). -/
def create_dashboard (tempRaw humidRaw : Option (List RawRecord)) : Option DashResult :=
  if tempRaw = none ∨ humidRaw = none then some DashResult.fetchFailure
  else
    match process_data (tempRaw.getD []), process_data (humidRaw.getD []) with
    | some tdf, some hdf =>
      if tdf = [] ∧ hdf = [] then some DashResult.noValidData
      else some (DashResult.rendered tdf hdf)
    | _, _ => none

/-- The normalizer as invoked on a fetch result at lines 86-87:
`process_data(raw or [])` — a null raw result is coerced to the empty list
before normalization. -/
def normalizeFetched (raw : Option (List RawRecord)) : Option (List Point) :=
  process_data (raw.getD [])

/-! ### The feed fetcher `get_feed_data` (app.py lines 22-33) -/

/-- The result-count ceiling, `LIMIT = 500` (line 19), the default of the
`limit` parameter of `get_feed_data`. -/
def LIMIT : Nat := 500

/-- The HTTP request assembled by lines 24-28: method, templated URL,
headers and query parameters of `requests.get(url, headers=headers,
params=params)`. -/
structure HttpRequest where
  method : String
  url : String
  headers : List (String × String)
  params : List (String × Nat)
deriving DecidableEq, Repr

/-- The request issued for a feed: the fixed Adafruit IO endpoint templated
with the account username and the feed key, the `X-AIO-Key` header, and the
`limit` query parameter. -/
def feedRequest (username apiKey feed_key : String) (limit : Nat) : HttpRequest :=
  { method := "GET"
    url := "https://io.adafruit.com/api/v2/" ++ username ++ "/feeds/" ++ feed_key ++ "/data"
    headers := [("X-AIO-Key", apiKey)]
    params := [("limit", limit)] }

/-- Environment value abstracting one network interaction of `requests.get`:
either the transport layer fails (a `requests.exceptions.RequestException`
is raised), or a response arrives with a status code and a body whose JSON
decoding either fails or yields a list of records. -/
inductive FetchOutcome where
  | transportError : String → FetchOutcome
  | response : Nat → Except String (List RawRecord) → FetchOutcome

/-- A Python exception, as far as this pipeline distinguishes them.
`requests.get`, `raise_for_status` and `Response.json` all raise subclasses
of `requests.exceptions.RequestException` (`Response.json` raises
`requests.exceptions.JSONDecodeError`, a `RequestException` subclass in
requests ≥ 2.27). -/
inductive PyExc where
  | requestException : String → PyExc
  | otherError : String → PyExc
deriving DecidableEq, Repr

/-- Line 32: `st.error(f"Error fetching data for {feed_key}: {e}")`. -/
def fetchErrMsg (feed_key cause : String) : String :=
  "Error fetching data for " ++ feed_key ++ ": " ++ cause

/-- The `try` body of lines 28-30: issue the request, `raise_for_status`
(raises `HTTPError` for 4xx/5xx), decode the JSON body (raises
`JSONDecodeError` on malformed JSON). -/
def fetchBody (net : FetchOutcome) : Except PyExc (List RawRecord) :=
  match net with
  | FetchOutcome.transportError cause => Except.error (PyExc.requestException cause)
  | FetchOutcome.response status body =>
    if 400 ≤ status ∧ status < 600 then
      Except.error (PyExc.requestException ("HTTP " ++ toString status))
    else
      match body with
      | Except.error msg => Except.error (PyExc.requestException msg)
      | Except.ok records => Except.ok records

/-- Model of `get_feed_data` (lines 22-33): build the request of lines
24-26, issue it against the network (a function from the issued request to
its outcome), `raise_for_status`, decode; the `try/except` catches every
`RequestException`, reports `fetchErrMsg` and returns `None`, while a
successful decode returns the records.  The result is the returned value
paired with the user-visible error messages; an `Except.error` result would
model an exception escaping `get_feed_data` uncaught. -/
def get_feed_data (username apiKey feed_key : String) (limit : Nat)
    (net : HttpRequest → FetchOutcome) :
    Except PyExc (Option (List RawRecord) × List String) :=
  match fetchBody (net (feedRequest username apiKey feed_key limit)) with
  | Except.ok records => Except.ok (some records, [])
  | Except.error (PyExc.requestException cause) =>
    Except.ok (none, [fetchErrMsg feed_key cause])
  | Except.error e => Except.error e

/-! ### The fetch memo cache

Modelled from the spec: the `@st.cache_data(ttl=600)` decorator on
`get_feed_data` (line 22) and the `st.cache_data.clear()` call (line 67)
are provided by the hosting framework, not by code under `src/`.  The spec
describes them as a process-wide memo table keyed by feed key: a repeated
call with the same key within 600 seconds returns the previously fetched
result without re-issuing the request, and manual invalidation clears all
memoized results immediately. -/

/-- The fixed time-to-live of the fetch memo cache, in seconds. -/
def TTL : Nat := 600

structure CacheEntry where
  key : String
  storedAt : Nat
  data : List RawRecord
deriving DecidableEq, Repr

/-- The process-wide memo table plus a counter of network requests issued
(the observable the memo contract is about). -/
structure CacheState where
  entries : List CacheEntry
  networkCalls : Nat
deriving DecidableEq, Repr

/-- A stored result for `key` that is still fresh at time `now`. -/
def lookupFresh (es : List CacheEntry) (key : String) (now : Nat) : Option (List RawRecord) :=
  match es.find? (fun e => e.key == key && now < e.storedAt + TTL) with
  | some e => some e.data
  | none => none

/-- One memoized call: a fresh stored result is returned as-is (no network
request); otherwise the fetch is performed, counted, and its result stored
under the key at the current time. -/
def cachedCall (st : CacheState) (key : String) (now : Nat)
    (fetch : Unit → List RawRecord) : List RawRecord × CacheState :=
  match lookupFresh st.entries key now with
  | some d => (d, st)
  | none =>
    let d := fetch ()
    (d, ⟨⟨key, now, d⟩ :: st.entries, st.networkCalls + 1⟩)

/-- Manual invalidation (`st.cache_data.clear()`): every memoized result is
dropped immediately. -/
def clearCache (st : CacheState) : CacheState :=
  ⟨[], st.networkCalls⟩

/-! ### Helper lemmas about the normalization loop -/

/-- A record both of whose fields parse, with an aware (offset-carrying)
timestamp — a "valid RawRecord" in the sense of the spec's data model. -/
def parsesAware (r : RawRecord) : Bool :=
  (match parseTime r with
   | some dt => dt.offset.isSome
   | none => false) && (parseVal r).isSome

/-- The `values` list never outgrows the `times` list: each loop iteration
appends to `times` first. -/
theorem processEntries_len_le (l : List RawRecord) :
    (processEntries l).2.length ≤ (processEntries l).1.length := by
  induction l with
  | nil => simp [processEntries]
  | cons e rest ih =>
    cases hpt : parseTime e with
    | none => simpa [processEntries, hpt] using ih
    | some dt =>
      cases hpv : parseVal e with
      | none =>
        simp only [processEntries, hpt, hpv, List.length_cons]
        exact Nat.le_succ_of_le ih
      | some v =>
        simp only [processEntries, hpt, hpv, List.length_cons]
        exact Nat.succ_le_succ ih

/-- When the two lists end up the same length, every surviving pair is the
parse of some input record, and there are at most as many pairs as records. -/
theorem processEntries_zip_sound (l : List RawRecord)
    (hlen : (processEntries l).1.length = (processEntries l).2.length) :
    ((processEntries l).1.zip (processEntries l).2).length ≤ l.length ∧
    ∀ p ∈ (processEntries l).1.zip (processEntries l).2,
      ∃ r ∈ l, parseTime r = some p.1 ∧ parseVal r = some p.2 := by
  induction l with
  | nil => simp [processEntries]
  | cons e rest ih =>
    cases hpt : parseTime e with
    | none =>
      simp only [processEntries, hpt] at hlen ⊢
      obtain ⟨h1, h2⟩ := ih hlen
      refine ⟨Nat.le_succ_of_le h1, ?_⟩
      intro p hp
      obtain ⟨r, hr, hparse⟩ := h2 p hp
      exact ⟨r, List.mem_cons_of_mem e hr, hparse⟩
    | some dt =>
      cases hpv : parseVal e with
      | none =>
        exfalso
        simp only [processEntries, hpt, hpv, List.length_cons] at hlen
        have hle := processEntries_len_le rest
        omega
      | some v =>
        simp only [processEntries, hpt, hpv, List.length_cons, Nat.succ.injEq] at hlen
        obtain ⟨h1, h2⟩ := ih hlen
        simp only [processEntries, hpt, hpv, List.zip_cons_cons, List.length_cons]
        refine ⟨Nat.succ_le_succ h1, ?_⟩
        intro p hp
        rcases List.mem_cons.mp hp with hph | hpt2
        · exact ⟨e, List.mem_cons_self e rest, by rw [hph]; exact ⟨hpt, hpv⟩⟩
        · obtain ⟨r, hr, hparse⟩ := h2 p hpt2
          exact ⟨r, List.mem_cons_of_mem e hr, hparse⟩

/-- On a batch of valid records the loop keeps `times` and `values` in
lockstep, and every surviving timestamp is aware. -/
theorem processEntries_all_valid (l : List RawRecord)
    (h : ∀ r ∈ l, parsesAware r = true) :
    (processEntries l).1.length = (processEntries l).2.length ∧
    ∀ dt ∈ (processEntries l).1, dt.offset.isSome = true := by
  induction l with
  | nil => simp [processEntries]
  | cons e rest ih =>
    have he := h e (List.mem_cons_self e rest)
    have hrest := ih (fun r hr => h r (List.mem_cons_of_mem e hr))
    cases hpt : parseTime e with
    | none => simp [parsesAware, hpt] at he
    | some dt =>
      cases hpv : parseVal e with
      | none => simp [parsesAware, hpt, hpv] at he
      | some v =>
        have haware : dt.offset.isSome = true := by
          simpa [parsesAware, hpt, hpv] using he
        simp only [processEntries, hpt, hpv, List.length_cons, List.mem_cons]
        refine ⟨by rw [hrest.1], ?_⟩
        intro dt2 hdt2
        rcases hdt2 with h2 | h2
        · rwa [h2]
        · exact hrest.2 dt2 h2

/-! ### Claim theorems -/

/-- C2 (code bug): a record whose timestamp parses but whose value does not
(`"N/A"`) is not skipped cleanly — its timestamp has already been appended
to `times` when `float` raises, so the final `pd.DataFrame` call sees
columns of different lengths and raises `ValueError`, aborting the whole
normalization instead of skipping the one bad record. -/
theorem c2_bad_value_aborts_normalization :
    process_data [⟨"2024-01-01T00:00:00Z", "N/A"⟩, ⟨"2024-01-01T00:00:01Z", "24.5"⟩]
      = none := by decide

/-- C4: normalizing an empty or null fetch result (null is coerced to `[]`
by the `or []` at the call sites, lines 86-87) yields an empty series and
raises no error. -/
theorem c4_empty_or_null_yields_empty_series :
    normalizeFetched none = some [] ∧ normalizeFetched (some []) = some [] := by decide

/-- C6: a trailing `Z` is rewritten to `+00:00` before parsing, so
`"2024-01-01T00:00:00Z"` normalizes to the aware timestamp
`2024-01-01T00:00:00+00:00` (offset zero), identical to parsing the
explicit-offset spelling, and end to end the record becomes that point. -/
theorem c6_trailing_Z_is_utc :
    replaceZ "2024-01-01T00:00:00Z".data = "2024-01-01T00:00:00+00:00".data ∧
    parseTime ⟨"2024-01-01T00:00:00Z", "25.0"⟩ = some ⟨2024, 1, 1, 0, 0, 0, 0, some 0⟩ ∧
    fromisoformat "2024-01-01T00:00:00+00:00".data = some ⟨2024, 1, 1, 0, 0, 0, 0, some 0⟩ ∧
    process_data [⟨"2024-01-01T00:00:00Z", "25.0"⟩]
      = some [(⟨2024, 1, 1, 0, 0, 0, 0, some 0⟩, PyFloat.finite 25)] := by decide

/-- C10: value parsing follows Python `float` semantics — `"nan"`, `"inf"`,
`"-Infinity"` and whitespace-padded numerics all parse successfully and the
records carrying them are included in the series, which may therefore hold
non-finite values. -/
theorem c10_python_float_semantics :
    pyFloat "nan" = some PyFloat.nan ∧
    pyFloat "inf" = some PyFloat.inf ∧
    pyFloat "-Infinity" = some PyFloat.negInf ∧
    pyFloat "  25.0  " = some (PyFloat.finite 25) ∧
    process_data
        [⟨"2024-01-01T00:00:01Z", "nan"⟩, ⟨"2024-01-01T00:00:02Z", "inf"⟩,
         ⟨"2024-01-01T00:00:03Z", "-Infinity"⟩, ⟨"2024-01-01T00:00:04Z", "  25.0  "⟩]
      = some
        [(⟨2024, 1, 1, 0, 0, 1, 0, some 0⟩, PyFloat.nan),
         (⟨2024, 1, 1, 0, 0, 2, 0, some 0⟩, PyFloat.inf),
         (⟨2024, 1, 1, 0, 0, 3, 0, some 0⟩, PyFloat.negInf),
         (⟨2024, 1, 1, 0, 0, 4, 0, some 0⟩, PyFloat.finite 25)] := by decide

/-- C1 (counterexample): when the temperature fetch fails (`None`) while the
humidity fetch succeeded with a perfectly normalizable record, line 82 of
`create_dashboard` takes the early fetch-error return — the sibling feed is
NOT normalized or rendered, although normalizing it would have produced a
one-point series. -/
theorem c1_counterexample :
    create_dashboard none (some [⟨"2024-01-01T00:00:00Z", "25.0"⟩])
        = some DashResult.fetchFailure ∧
    create_dashboard none (some [⟨"2024-01-01T00:00:00Z", "25.0"⟩])
        ≠ some (DashResult.rendered []
            [(⟨2024, 1, 1, 0, 0, 0, 0, some 0⟩, PyFloat.finite 25)]) ∧
    normalizeFetched (some [⟨"2024-01-01T00:00:00Z", "25.0"⟩])
        = some [(⟨2024, 1, 1, 0, 0, 0, 0, some 0⟩, PyFloat.finite 25)] := by decide

/-- C1 (amended): if either fetch returns `None`, the pipeline does not
crash — `create_dashboard` displays a fetch error and returns early — but
neither feed is normalized or rendered: the sibling feed is not processed. -/
theorem c1_fetch_failure_early_return (tempRaw humidRaw : Option (List RawRecord))
    (h : tempRaw = none ∨ humidRaw = none) :
    create_dashboard tempRaw humidRaw = some DashResult.fetchFailure := by
  unfold create_dashboard
  rw [if_pos h]

theorem c1_witness :
    create_dashboard none (some []) = some DashResult.fetchFailure :=
  c1_fetch_failure_early_return none (some []) (Or.inl rfl)

/-- C3: on a batch of valid records (both fields parse, timestamps aware)
the normalizer succeeds and its output is sorted ascending by timestamp —
`∀ i < j, series[i].timestamp ≤ series[j].timestamp`, positions being the
renumbered index — and the two-record out-of-order example is corrected. -/
theorem c3_output_sorted_by_time :
    (∀ data : List RawRecord, (∀ r ∈ data, parsesAware r = true) →
      ∃ series, process_data data = some series ∧
        ∀ i j : Fin series.length, i < j →
          tsKey (series.get i).1 ≤ tsKey (series.get j).1) ∧
    process_data [⟨"2024-01-01T00:00:02Z", "25.0"⟩, ⟨"2024-01-01T00:00:01Z", "24.5"⟩]
      = some
        [(⟨2024, 1, 1, 0, 0, 1, 0, some 0⟩, PyFloat.finite (mkRat 49 2)),
         (⟨2024, 1, 1, 0, 0, 2, 0, some 0⟩, PyFloat.finite 25)] := by
  constructor
  · intro data hall
    obtain ⟨hlen, haware⟩ := processEntries_all_valid data hall
    have hcomp : pairsComparable ((processEntries data).1.zip (processEntries data).2) = true := by
      unfold pairsComparable
      rw [Bool.or_eq_true]
      left
      rw [List.all_eq_true]
      intro p hp
      exact haware p.1 (List.of_mem_zip hp).1
    refine ⟨List.insertionSort timeLE ((processEntries data).1.zip (processEntries data).2),
      ?_, ?_⟩
    · unfold process_data
      rw [if_pos hlen, if_pos hcomp]
    · intro i j hij
      have hs := List.sorted_insertionSort timeLE
        ((processEntries data).1.zip (processEntries data).2)
      exact List.pairwise_iff_get.mp hs i j hij
  · decide

theorem c3_witness :
    ∃ series,
      process_data [⟨"2024-01-01T00:00:02Z", "25.0"⟩, ⟨"2024-01-01T00:00:01Z", "24.5"⟩]
        = some series ∧
      ∀ i j : Fin series.length, i < j →
        tsKey (series.get i).1 ≤ tsKey (series.get j).1 :=
  c3_output_sorted_by_time.1
    [⟨"2024-01-01T00:00:02Z", "25.0"⟩, ⟨"2024-01-01T00:00:01Z", "24.5"⟩] (by decide)

/-- C9: whenever the normalizer returns a series, it holds at most as many
points as the input had records, and every point is the parse of the two
fields of some input record — no data point is fabricated. -/
theorem c9_no_fabricated_points (data : List RawRecord) (series : List Point)
    (h : process_data data = some series) :
    series.length ≤ data.length ∧
    ∀ p ∈ series, ∃ r ∈ data, parseTime r = some p.1 ∧ parseVal r = some p.2 := by
  unfold process_data at h
  by_cases hlen : (processEntries data).1.length = (processEntries data).2.length
  · rw [if_pos hlen] at h
    by_cases hcomp :
        pairsComparable ((processEntries data).1.zip (processEntries data).2) = true
    · rw [if_pos hcomp] at h
      have hser : List.insertionSort timeLE
          ((processEntries data).1.zip (processEntries data).2) = series :=
        Option.some.inj h
      have hperm := List.perm_insertionSort timeLE
        ((processEntries data).1.zip (processEntries data).2)
      rw [hser] at hperm
      obtain ⟨h1, h2⟩ := processEntries_zip_sound data hlen
      constructor
      · rw [hperm.length_eq]; exact h1
      · intro p hp
        exact h2 p (hperm.mem_iff.mp hp)
    · rw [if_neg hcomp] at h; cases h
  · rw [if_neg hlen] at h; cases h

theorem c9_witness :
    ([(⟨2024, 1, 1, 0, 0, 0, 0, some 0⟩, PyFloat.finite 25)] : List Point).length
        ≤ ([⟨"2024-01-01T00:00:00Z", "25.0"⟩] : List RawRecord).length ∧
    ∀ p ∈ ([(⟨2024, 1, 1, 0, 0, 0, 0, some 0⟩, PyFloat.finite 25)] : List Point),
      ∃ r ∈ ([⟨"2024-01-01T00:00:00Z", "25.0"⟩] : List RawRecord),
        parseTime r = some p.1 ∧ parseVal r = some p.2 :=
  c9_no_fabricated_points [⟨"2024-01-01T00:00:00Z", "25.0"⟩]
    [(⟨2024, 1, 1, 0, 0, 0, 0, some 0⟩, PyFloat.finite 25)] (by decide)

/-- The `try` body only ever raises `RequestException`s, which the `except`
clause catches. -/
theorem fetchBody_cases (net : FetchOutcome) :
    (∃ records, fetchBody net = Except.ok records) ∨
    (∃ cause, fetchBody net = Except.error (PyExc.requestException cause)) := by
  cases net with
  | transportError c => exact Or.inr ⟨c, rfl⟩
  | response status body =>
    simp only [fetchBody]
    by_cases h : 400 ≤ status ∧ status < 600
    · rw [if_pos h]; exact Or.inr ⟨_, rfl⟩
    · rw [if_neg h]
      cases body with
      | error msg => exact Or.inr ⟨msg, rfl⟩
      | ok records => exact Or.inl ⟨records, rfl⟩

/-- C5: for every feed key and limit the fetcher never raises uncaught — on
transport failure, 4xx/5xx status, or malformed JSON body it catches the
exception, reports a message naming the feed and the cause, and returns the
single null failure result; on a successful decode it returns the records. -/
theorem c5_fetcher_never_raises (username apiKey feed_key : String) (limit : Nat)
    (net : HttpRequest → FetchOutcome) :
    (∃ out, get_feed_data username apiKey feed_key limit net = Except.ok out) ∧
    (∀ cause,
      net (feedRequest username apiKey feed_key limit) = FetchOutcome.transportError cause →
      get_feed_data username apiKey feed_key limit net
        = Except.ok (none, [fetchErrMsg feed_key cause])) ∧
    (∀ status body,
      net (feedRequest username apiKey feed_key limit) = FetchOutcome.response status body →
      400 ≤ status → status < 600 →
      get_feed_data username apiKey feed_key limit net
        = Except.ok (none, [fetchErrMsg feed_key ("HTTP " ++ toString status)])) ∧
    (∀ status msg,
      net (feedRequest username apiKey feed_key limit)
          = FetchOutcome.response status (Except.error msg) →
      ¬(400 ≤ status ∧ status < 600) →
      get_feed_data username apiKey feed_key limit net
        = Except.ok (none, [fetchErrMsg feed_key msg])) ∧
    (∀ status records,
      net (feedRequest username apiKey feed_key limit)
          = FetchOutcome.response status (Except.ok records) →
      ¬(400 ≤ status ∧ status < 600) →
      get_feed_data username apiKey feed_key limit net = Except.ok (some records, [])) := by
  refine ⟨?_, ?_, ?_, ?_, ?_⟩
  · unfold get_feed_data
    rcases fetchBody_cases (net (feedRequest username apiKey feed_key limit)) with
      ⟨records, hfb⟩ | ⟨cause, hfb⟩
    · rw [hfb]; exact ⟨_, rfl⟩
    · rw [hfb]; exact ⟨_, rfl⟩
  · intro cause hnet
    unfold get_feed_data
    rw [hnet]
    rfl
  · intro status body hnet h4 h6
    unfold get_feed_data
    rw [hnet]
    simp only [fetchBody]
    rw [if_pos ⟨h4, h6⟩]
  · intro status msg hnet hns
    unfold get_feed_data
    rw [hnet]
    simp only [fetchBody]
    rw [if_neg hns]
  · intro status records hnet hns
    unfold get_feed_data
    rw [hnet]
    simp only [fetchBody]
    rw [if_neg hns]

theorem c5_witness :
    get_feed_data "emon4075" "aio-key" "temperature" 500
        (fun _ => FetchOutcome.transportError "ConnectionError")
      = Except.ok (none, [fetchErrMsg "temperature" "ConnectionError"]) :=
  (c5_fetcher_never_raises "emon4075" "aio-key" "temperature" 500
    (fun _ => FetchOutcome.transportError "ConnectionError")).2.1 "ConnectionError" rfl

/-- C8: for every feed key and limit the fetcher issues a GET against the
fixed endpoint templated with the account username and the feed key, with
the API key in the `X-AIO-Key` header and the count in the integer `limit`
query parameter, whose default `LIMIT` is 500; the fetch outcome depends on
the network only through its answer to exactly that request. -/
theorem c8_request_shape (username apiKey feed_key : String) (limit : Nat) :
    feedRequest username apiKey feed_key limit =
      { method := "GET"
        url := "https://io.adafruit.com/api/v2/" ++ username ++ "/feeds/"
            ++ feed_key ++ "/data"
        headers := [("X-AIO-Key", apiKey)]
        params := [("limit", limit)] } ∧
    LIMIT = 500 ∧
    ∀ net net2 : HttpRequest → FetchOutcome,
      net (feedRequest username apiKey feed_key limit)
          = net2 (feedRequest username apiKey feed_key limit) →
      get_feed_data username apiKey feed_key limit net
        = get_feed_data username apiKey feed_key limit net2 := by
  refine ⟨rfl, rfl, ?_⟩
  intro net net2 h
  unfold get_feed_data
  rw [h]

theorem c8_witness :
    feedRequest "emon4075" "aio-key" "temperature" LIMIT =
      { method := "GET"
        url := "https://io.adafruit.com/api/v2/emon4075/feeds/temperature/data"
        headers := [("X-AIO-Key", "aio-key")]
        params := [("limit", 500)] } ∧
    get_feed_data "emon4075" "aio-key" "temperature" LIMIT
        (fun _ => FetchOutcome.transportError "x")
      = get_feed_data "emon4075" "aio-key" "temperature" LIMIT
        (fun _ => FetchOutcome.transportError "x") :=
  ⟨((c8_request_shape "emon4075" "aio-key" "temperature" LIMIT).1).trans (by decide),
   (c8_request_shape "emon4075" "aio-key" "temperature" LIMIT).2.2 _ _ rfl⟩

/-- C7: after a fetch is performed and memoized for a feed key, a second
call with the same key within the 600-second window returns the previously
fetched data with the cache unchanged — in particular without issuing a
second network request — while manual invalidation clears every entry, so
the next call performs a fresh fetch and issues a new request. -/
theorem c7_memo_ttl_and_clear (st : CacheState) (key : String) (now now2 : Nat)
    (fetch fetch2 : Unit → List RawRecord)
    (hmiss : lookupFresh st.entries key now = none)
    (hwin : now2 < now + TTL) :
    (cachedCall st key now fetch).2.networkCalls = st.networkCalls + 1 ∧
    cachedCall (cachedCall st key now fetch).2 key now2 fetch2
        = ((cachedCall st key now fetch).1, (cachedCall st key now fetch).2) ∧
    cachedCall (clearCache (cachedCall st key now fetch).2) key now2 fetch2
        = (fetch2 (), ⟨[⟨key, now2, fetch2 ()⟩], st.networkCalls + 1 + 1⟩) := by
  have hcall : cachedCall st key now fetch
      = (fetch (), ⟨⟨key, now, fetch ()⟩ :: st.entries, st.networkCalls + 1⟩) := by
    unfold cachedCall
    rw [hmiss]
  have hfind : lookupFresh (⟨key, now, fetch ()⟩ :: st.entries) key now2
      = some (fetch ()) := by
    unfold lookupFresh
    rw [List.find?_cons_of_pos]
    simp [hwin]
  refine ⟨by rw [hcall], ?_, ?_⟩
  · rw [hcall]
    unfold cachedCall
    rw [hfind]
  · rw [hcall]
    unfold clearCache cachedCall
    rfl

theorem c7_witness :
    cachedCall (cachedCall ⟨[], 0⟩ "temperature" 0
        (fun _ => [⟨"2024-01-01T00:00:00Z", "25.0"⟩])).2 "temperature" 599 (fun _ => [])
      = ((cachedCall ⟨[], 0⟩ "temperature" 0
            (fun _ => [⟨"2024-01-01T00:00:00Z", "25.0"⟩])).1,
         (cachedCall ⟨[], 0⟩ "temperature" 0
            (fun _ => [⟨"2024-01-01T00:00:00Z", "25.0"⟩])).2) :=
  (c7_memo_ttl_and_clear ⟨[], 0⟩ "temperature" 0 599
    (fun _ => [⟨"2024-01-01T00:00:00Z", "25.0"⟩]) (fun _ => []) rfl (by decide)).2.1
